import Mathlib

/-!
Shallow embedding of `receipt-processor.go` (package main): the point
calculator `calculatePoints`, the JSON decoding step of
`processReceiptHandler`, the in-memory `receiptStore`, and the two HTTP
handlers, together with theorems settling the specification claims.

Numeric model: the Go code parses monetary strings with
`strconv.ParseFloat(_, 64)` and compares the resulting `float64` values.
Here a parsed decimal string is represented exactly as a scaled integer
(mantissa over a power of ten), so every monetary comparison is exact.
For the decimal monetary strings the rules are applied to (a sign, digits
and at most one decimal point, as in all the spec's examples), the exact
value and the `float64` value round-trip to the same rule outcomes:
whole-dollar multiples, quarter multiples and fifth-ceilings of values
with two fractional digits are decided identically by `float64`
arithmetic and by exact decimal arithmetic.  Forms `ParseFloat` also
accepts but that are not plain decimal notation (exponents, hex floats,
"Inf", "NaN", digit-separating underscores) are outside the model.
-/

namespace ReceiptProcessor

/-! ### Decimal strings (strconv.ParseFloat, restricted to plain decimal notation) -/

/-- Numeric value of a list of ASCII digits, most significant first. -/
def digitsToNat (cs : List Char) : Nat :=
  cs.foldl (fun a c => 10 * a + (c.toNat - 48)) 0

/-- An exactly-represented decimal number: `mantissa / 10 ^ scale`. -/
structure Decimal where
  mantissa : Int
  scale : Nat
deriving DecidableEq, Repr

/-- Rational value denoted by a `Decimal`. -/
def decValue (d : Decimal) : ℚ :=
  (d.mantissa : ℚ) / (10 : ℚ) ^ d.scale

/-- Models `strconv.ParseFloat(s, 64)` on plain decimal notation: an
optional sign, then digits with at most one decimal point and at least
one digit.  The value is kept exactly as a scaled integer (see the
header note on `float64` versus exact decimals). -/
def parseDecimal (s : String) : Option Decimal :=
  let cs := s.toList
  let sgnBody : Int × List Char :=
    match cs with
    | '-' :: rest => (-1, rest)
    | '+' :: rest => (1, rest)
    | _ => (1, cs)
  let sgn := sgnBody.1
  let body := sgnBody.2
  let ip := body.takeWhile Char.isDigit
  match body.drop ip.length with
  | [] =>
      if ip.isEmpty then none
      else some ⟨sgn * digitsToNat ip, 0⟩
  | '.' :: fp =>
      if fp.all Char.isDigit && !(ip.isEmpty && fp.isEmpty) then
        some ⟨sgn * (digitsToNat ip * 10 ^ fp.length + digitsToNat fp), fp.length⟩
      else none
  | _ => none

/-! ### Whitespace trimming and UTF-8 length (strings.TrimSpace, len) -/

/-- Models `unicode.IsSpace`: the Unicode white-space code points. -/
def isSpaceGo (c : Char) : Bool :=
  c = '\t' || c = '\n' || c.toNat = 11 || c.toNat = 12 || c = '\r' || c = ' ' ||
  c.toNat = 0x85 || c.toNat = 0xA0 || c.toNat = 0x1680 ||
  (0x2000 ≤ c.toNat && c.toNat ≤ 0x200A) ||
  c.toNat = 0x2028 || c.toNat = 0x2029 || c.toNat = 0x202F ||
  c.toNat = 0x205F || c.toNat = 0x3000

/-- Models `strings.TrimSpace`: drop leading and trailing white space. -/
def trimSpace (cs : List Char) : List Char :=
  ((cs.dropWhile isSpaceGo).reverse.dropWhile isSpaceGo).reverse

/-- Models Go `len` on a string: its length in UTF-8 bytes. -/
def utf8Length (cs : List Char) : Nat :=
  (cs.map Char.utf8Size).sum

/-! ### Dates and times (time.Parse with layouts "2006-01-02" and "15:04") -/

/-- Gregorian leap-year rule, as in Go's `time` package. -/
def isLeapYear (y : Nat) : Bool :=
  y % 4 == 0 && (y % 100 != 0 || y % 400 == 0)

/-- Number of days in a month, as validated by `time.Parse`. -/
def daysInMonth (y m : Nat) : Nat :=
  if m = 2 then (if isLeapYear y then 29 else 28)
  else if m = 4 ∨ m = 6 ∨ m = 9 ∨ m = 11 then 30
  else 31

/-- Models `time.Parse("2006-01-02", s)`: four year digits, dash, two
month digits, dash, two day digits, with month and day range-checked.
Returns `(year, month, day)`. -/
def parseDate (s : String) : Option (Nat × Nat × Nat) :=
  match s.toList with
  | [y1, y2, y3, y4, '-', m1, m2, '-', d1, d2] =>
      if [y1, y2, y3, y4, m1, m2, d1, d2].all Char.isDigit then
        let y := digitsToNat [y1, y2, y3, y4]
        let m := digitsToNat [m1, m2]
        let d := digitsToNat [d1, d2]
        if 1 ≤ m ∧ m ≤ 12 ∧ 1 ≤ d ∧ d ≤ daysInMonth y m then some (y, m, d)
        else none
      else none
  | _ => none

/-- Models `time.Parse("15:04", s)`: a one- or two-digit hour at most 23,
a colon, and exactly two minute digits at most 59.  Returns
`(hour, minute)`, the pair `purchaseTime.Clock()` yields in the code. -/
def parseTime (s : String) : Option (Nat × Nat) :=
  let cs := s.toList
  let hp := cs.takeWhile (fun c => c ≠ ':')
  match cs.drop hp.length with
  | ':' :: mp =>
      if (hp.length == 1 || hp.length == 2) && hp.all Char.isDigit &&
          mp.length == 2 && mp.all Char.isDigit then
        let h := digitsToNat hp
        let m := digitsToNat mp
        if h ≤ 23 ∧ m ≤ 59 then some (h, m) else none
      else none
  | _ => none

/-! ### Data model (receipt-processor.go lines 17-33) -/

/-- The `Item` struct (lines 25-28). -/
structure Item where
  shortDescription : String
  price : String
deriving DecidableEq, Repr

/-- The `Receipt` struct (lines 17-23). -/
structure Receipt where
  retailer : String
  purchaseDate : String
  purchaseTime : String
  total : String
  items : List Item
deriving DecidableEq, Repr

/-- The `ProcessedReceipt` struct (lines 30-33). -/
structure ProcessedReceipt where
  ID : String
  Points : Int
deriving DecidableEq, Repr

/-! ### The scoring rules (calculatePoints, lines 37-93) -/

/-- Models lines 40-44: one point per retailer character that is a letter
or a digit.  Go classifies by the full Unicode tables
(`unicode.IsLetter`, `unicode.IsDigit`); the model uses the ASCII
classification, on which the two agree for every retailer name the
claims exercise. -/
def retailerPoints (retailer : String) : Int :=
  ((retailer.toList.filter (fun c => c.isAlpha || c.isDigit)).length : Int)

/-- Models line 50, `total == math.Trunc(total)`: the value has zero
fractional part, i.e. `10 ^ scale` divides the mantissa. -/
def isRoundDollar (d : Decimal) : Bool :=
  d.mantissa % (10 : Int) ^ d.scale == 0

/-- Models line 55, `math.Mod(total, 0.25) == 0`: the value is an integer
multiple of 1/4, i.e. `10 ^ scale` divides four times the mantissa. -/
def isQuarterMultiple (d : Decimal) : Bool :=
  (4 * d.mantissa) % (10 : Int) ^ d.scale == 0

/-- Models lines 46-58: parse the total; on success add 50 for a round
dollar amount and 25 for a multiple of 0.25; on parse failure add 0. -/
def totalRulePoints (total : String) : Int :=
  match parseDecimal total with
  | some d => (if isRoundDollar d then 50 else 0) + (if isQuarterMultiple d then 25 else 0)
  | none => 0

/-- Models lines 60-62: `(numItems / 2) * 5`, five points per pair. -/
def pairPoints (items : List Item) : Int :=
  ((items.length / 2) * 5 : Nat)

/-- Models line 70, `int(math.Ceil(price * 0.2))`: the ceiling of one
fifth of the value `mantissa / 10 ^ scale`, computed exactly as a
ceiling division of integers (`ceilMulFifth_eq_ceil` below equates it
with the rational ceiling). -/
def ceilMulFifth (d : Decimal) : Int :=
  (d.mantissa + 5 * (10 : Int) ^ d.scale - 1) / (5 * (10 : Int) ^ d.scale)

/-- Models lines 66-73, the body of the item loop: if the UTF-8 byte
length of the trimmed description is a multiple of 3 and the price
parses, add the ceiling of a fifth of the price, else add 0. -/
def itemPoints (item : Item) : Int :=
  let description := trimSpace item.shortDescription.toList
  if utf8Length description % 3 = 0 then
    match parseDecimal item.price with
    | some price => ceilMulFifth price
    | none => 0
  else 0

/-- Models lines 65-74: the item loop sums each item's contribution. -/
def descriptionPoints (items : List Item) : Int :=
  (items.map itemPoints).sum

/-- Models lines 76-80: six points when the purchase date parses and its
day of month is odd. -/
def datePoints (purchaseDate : String) : Int :=
  match parseDate purchaseDate with
  | some (_, _, d) => if d % 2 = 1 then 6 else 0
  | none => 0

/-- Models lines 82-90: ten points when the purchase time parses and
`hour*60 + minute` lies in `[14*60, 16*60)`. -/
def timePoints (purchaseTime : String) : Int :=
  match parseTime purchaseTime with
  | some (h, m) =>
      if 14 * 60 ≤ h * 60 + m ∧ h * 60 + m < 16 * 60 then 10 else 0
  | none => 0

/-- Models `calculatePoints` (lines 37-93): the sum of the six additive
rule groups, in the order the Go code accumulates them. -/
def calculatePoints (receipt : Receipt) : Int :=
  retailerPoints receipt.retailer +
  totalRulePoints receipt.total +
  pairPoints receipt.items +
  descriptionPoints receipt.items +
  datePoints receipt.purchaseDate +
  timePoints receipt.purchaseTime

/-! ### JSON documents and decoding (encoding/json, as used on lines 96-101)

The handler decodes the request body into a `Receipt` with
`json.NewDecoder(r.Body).Decode(&receipt)`.  `Json` below models a
syntactically well-formed JSON document; the decode functions model Go's
`encoding/json` struct decoding: keys are matched to struct fields
ASCII-case-insensitively, unknown keys are ignored, later duplicate keys
overwrite earlier ones, a `null` leaves the target as is, a missing key
leaves the field at its zero value, and a value of the wrong shape for a
field makes decoding fail. -/

/-- A syntactically well-formed JSON value.  A number carries its
mantissa and scale; numbers never decode into the string-typed receipt
fields, so the payload is never consulted. -/
inductive Json where
  | null
  | bool (b : Bool)
  | num (mantissa : Int) (scale : Nat)
  | str (s : String)
  | arr (elems : List Json)
  | obj (fields : List (String × Json))

/-- ASCII lower-casing of one character. -/
def lowerAscii (c : Char) : Char :=
  if 'A' ≤ c ∧ c ≤ 'Z' then Char.ofNat (c.toNat + 32) else c

/-- Case-insensitive key matching, as `encoding/json` matches object
keys to struct field tags. -/
def keyMatches (key fieldName : String) : Bool :=
  key.toList.map lowerAscii == fieldName.toList.map lowerAscii

/-- The zero value of `Item`, the decoder's starting point. -/
def emptyItem : Item := ⟨"", ""⟩

/-- The zero value of `Receipt`, the decoder's starting point. -/
def emptyReceipt : Receipt := ⟨"", "", "", "", []⟩

/-- Decoding one key/value pair of an item object into an `Item`:
`null` is a no-op, a string value sets the matched field, any other
value for a known field is a type error, unknown keys are ignored. -/
def setItemField (it : Item) (key : String) (v : Json) : Option Item :=
  if keyMatches key "shortDescription" then
    match v with
    | .null => some it
    | .str s => some { it with shortDescription := s }
    | _ => none
  else if keyMatches key "price" then
    match v with
    | .null => some it
    | .str s => some { it with price := s }
    | _ => none
  else some it

/-- Decoding a JSON value into an `Item`: only `null` or an object is
accepted, fields folded left to right over the zero value. -/
def decodeItem (v : Json) : Option Item :=
  match v with
  | .null => some emptyItem
  | .obj fields => fields.foldlM (fun it kv => setItemField it kv.1 kv.2) emptyItem
  | _ => none

/-- Decoding one key/value pair of the receipt object: the four string
fields accept `null` (no-op) or a string; `items` accepts `null` (nil
slice) or an array of items; any other value for a known field is a
type error; unknown keys are ignored. -/
def setReceiptField (r : Receipt) (key : String) (v : Json) : Option Receipt :=
  if keyMatches key "retailer" then
    match v with
    | .null => some r
    | .str s => some { r with retailer := s }
    | _ => none
  else if keyMatches key "purchaseDate" then
    match v with
    | .null => some r
    | .str s => some { r with purchaseDate := s }
    | _ => none
  else if keyMatches key "purchaseTime" then
    match v with
    | .null => some r
    | .str s => some { r with purchaseTime := s }
    | _ => none
  else if keyMatches key "total" then
    match v with
    | .null => some r
    | .str s => some { r with total := s }
    | _ => none
  else if keyMatches key "items" then
    match v with
    | .null => some { r with items := [] }
    | .arr elems => (elems.mapM decodeItem).map (fun its => { r with items := its })
    | _ => none
  else some r

/-- Models `decoder.Decode(&receipt)` on a syntactically well-formed
body (lines 96-101): only `null` or an object is accepted; object
fields are folded left to right over the zero `Receipt`; a missing
field simply keeps its zero value. -/
def decodeReceipt (v : Json) : Option Receipt :=
  match v with
  | .null => some emptyReceipt
  | .obj fields => fields.foldlM (fun r kv => setReceiptField r kv.1 kv.2) emptyReceipt
  | _ => none

/-! ### The store and the handlers (lines 35, 95-128) -/

/-- Models the global `receiptStore` map (line 35) as an association
list; insertion prepends, lookup takes the most recent binding, which
is observationally the Go map with overwrite-on-insert. -/
abbrev Store := List (String × ProcessedReceipt)

/-- Models `processReceiptHandler` (lines 95-113) at the logical level:
given the current store, the parsed request body and the freshly
generated identifier (`uuid.New().String()` on line 104), either reject
the body (HTTP 400, store untouched, first component `none`) or compute
the points, record `ProcessedReceipt` under the identifier and respond
with the identifier. -/
def processReceiptHandler (store : Store) (body : Json) (id : String) :
    Option String × Store :=
  match decodeReceipt body with
  | none => (none, store)
  | some receipt =>
      (some id, (id, ⟨id, calculatePoints receipt⟩) :: store)

/-- Models `getPointsHandler` (lines 115-128): look the identifier up;
respond with the stored points, or with `none` (HTTP 404) when absent.
The store is returned unchanged in both cases, as the Go handler only
reads the map. -/
def getPointsHandler (store : Store) (id : String) : Option Int × Store :=
  match store.lookup id with
  | some pr => (some pr.Points, store)
  | none => (none, store)

/-- Well-formedness of the store: every record is keyed by its own
`ID` field, as arranged on lines 105-108. -/
def StoreWF (store : Store) : Prop :=
  ∀ entry ∈ store, (entry.2).ID = entry.1

/-! ### Concrete fixtures used by the claims -/

/-- The spec's end-to-end fixture: Target, 2022-01-01, 13:01, 35.35,
with the two listed items. -/
def targetFixture : Receipt :=
  { retailer := "Target"
    purchaseDate := "2022-01-01"
    purchaseTime := "13:01"
    total := "35.35"
    items := [⟨"Mountain Dew 12PK", "6.49"⟩, ⟨"Emils Cheese Pizza", "12.25"⟩] }

/-- A receipt whose fields all parse, and whose single item has an
empty (trimmed length 0, a multiple of 3) description and a price
string that parses to a negative value. -/
def negativePriceReceipt : Receipt :=
  { retailer := ""
    purchaseDate := "2022-01-02"
    purchaseTime := "10:00"
    total := "1.00"
    items := [⟨"", "-1000.00"⟩] }

/-! ### Supporting lemmas -/

/-- Ceiling division of integers agrees with the rational ceiling: for a
positive divisor `B`, `(m + B - 1) / B` (Euclidean division) is
`⌈m / B⌉`. -/
theorem ceilDiv_eq_ceil (m B : Int) (hB : 0 < B) :
    (m + B - 1) / B = ⌈(m : ℚ) / (B : ℚ)⌉ := by
  have hBQ : (0 : ℚ) < (B : ℚ) := by exact_mod_cast hB
  have hmod := Int.ediv_add_emod (m + B - 1) B
  have hr0 : 0 ≤ (m + B - 1) % B := Int.emod_nonneg _ (ne_of_gt hB)
  have hrB : (m + B - 1) % B < B := Int.emod_lt_of_pos _ hB
  have h1 : m ≤ ((m + B - 1) / B) * B := by linarith
  have h2 : (((m + B - 1) / B) - 1) * B < m := by linarith
  symm
  rw [Int.ceil_eq_iff]
  constructor
  · rw [lt_div_iff₀ hBQ]
    exact_mod_cast h2
  · rw [div_le_iff₀ hBQ]
    exact_mod_cast h1

/-- The integer ceiling division in `ceilMulFifth` computes exactly
`⌈value * 0.2⌉`, the exact-decimal reading of line 70. -/
theorem ceilMulFifth_eq_ceil (d : Decimal) :
    ceilMulFifth d = ⌈decValue d * (0.2 : ℚ)⌉ := by
  have hB : (0 : Int) < 5 * 10 ^ d.scale := by positivity
  rw [ceilMulFifth, ceilDiv_eq_ceil d.mantissa (5 * 10 ^ d.scale) hB, decValue]
  congr 1
  rw [show (0.2 : ℚ) = 1 / 5 by norm_num, div_mul_div_comm, mul_one]
  push_cast
  ring

/-- `isRoundDollar` holds exactly when the decimal's value is an
integer, the exact-decimal reading of `total == math.Trunc(total)`. -/
theorem isRoundDollar_iff (d : Decimal) :
    isRoundDollar d = true ↔ ∃ z : Int, decValue d = z := by
  have h10 : ((10 : ℚ) ^ d.scale) ≠ 0 := by positivity
  rw [isRoundDollar, beq_iff_eq, ← Int.dvd_iff_emod_eq_zero]
  constructor
  · rintro ⟨z, hz⟩
    refine ⟨z, ?_⟩
    rw [decValue, hz]
    push_cast
    field_simp
  · rintro ⟨z, hz⟩
    rw [decValue, div_eq_iff h10] at hz
    have hz' : d.mantissa = z * 10 ^ d.scale := by exact_mod_cast hz
    exact ⟨z, by linarith⟩

/-- `isQuarterMultiple` holds exactly when the decimal's value is an
integer multiple of 1/4, the exact-decimal reading of
`math.Mod(total, 0.25) == 0`. -/
theorem isQuarterMultiple_iff (d : Decimal) :
    isQuarterMultiple d = true ↔ ∃ z : Int, decValue d = (z : ℚ) / 4 := by
  have h10 : ((10 : ℚ) ^ d.scale) ≠ 0 := by positivity
  rw [isQuarterMultiple, beq_iff_eq, ← Int.dvd_iff_emod_eq_zero]
  constructor
  · rintro ⟨z, hz⟩
    refine ⟨z, ?_⟩
    rw [decValue, div_eq_div_iff h10 (by norm_num)]
    have h4 : d.mantissa * 4 = z * 10 ^ d.scale := by linarith
    exact_mod_cast h4
  · rintro ⟨z, hz⟩
    rw [decValue, div_eq_div_iff h10 (by norm_num)] at hz
    have h4 : d.mantissa * 4 = z * 10 ^ d.scale := by exact_mod_cast hz
    exact ⟨z, by linarith⟩

/-! ### Nonnegativity of the individual rules -/

theorem retailerPoints_nonneg (s : String) : 0 ≤ retailerPoints s :=
  Int.natCast_nonneg _

theorem totalRulePoints_nonneg (t : String) : 0 ≤ totalRulePoints t := by
  rw [totalRulePoints]
  cases parseDecimal t with
  | none => exact le_refl 0
  | some d => apply add_nonneg <;> split <;> norm_num

theorem pairPoints_nonneg (items : List Item) : 0 ≤ pairPoints items :=
  Int.natCast_nonneg _

theorem ceilMulFifth_nonneg (d : Decimal) (h : 0 ≤ d.mantissa) :
    0 ≤ ceilMulFifth d := by
  have hpow : (0 : Int) < 10 ^ d.scale := by positivity
  apply Int.ediv_nonneg
  · linarith
  · positivity

theorem itemPoints_nonneg (it : Item)
    (h : ∀ d, parseDecimal it.price = some d → 0 ≤ d.mantissa) :
    0 ≤ itemPoints it := by
  rw [itemPoints]
  split
  · cases hp : parseDecimal it.price with
    | none => simp [hp]
    | some d => simpa [hp] using ceilMulFifth_nonneg d (h d hp)
  · exact le_refl 0

theorem descriptionPoints_nonneg (items : List Item)
    (h : ∀ it ∈ items, ∀ d, parseDecimal it.price = some d → 0 ≤ d.mantissa) :
    0 ≤ descriptionPoints items := by
  rw [descriptionPoints]
  apply List.sum_nonneg
  intro x hx
  obtain ⟨it, hit, rfl⟩ := List.mem_map.1 hx
  exact itemPoints_nonneg it (h it hit)

theorem datePoints_nonneg (s : String) : 0 ≤ datePoints s := by
  rw [datePoints]
  split <;> first | split <;> norm_num | exact le_refl 0

theorem timePoints_nonneg (s : String) : 0 ≤ timePoints s := by
  rw [timePoints]
  split <;> first | split <;> norm_num | exact le_refl 0

/-! ### Claim C1 -/

/-- C1, counterexample: on the spec's fixture (Target, 2022-01-01,
13:01, 35.35, Mountain Dew 12PK at 6.49 and Emils Cheese Pizza at
12.25), `calculatePoints` does not return 31. -/
theorem c1_fixture_not_31 : calculatePoints targetFixture ≠ 31 := by decide

/-- C1, amended: on the spec's fixture `calculatePoints` returns
exactly 20 (6 retailer characters + 0 from the total rules + 5 for one
pair + 3 for Emils Cheese Pizza + 6 for the odd day + 0 for 13:01). -/
theorem c1_fixture_points : calculatePoints targetFixture = 20 := by decide

/-! ### Claim C2 -/

/-- C2, counterexample: a well-formed JSON object with no fields at all
(so retailer, total and items are all missing) is accepted by the
decoder, the submit operation succeeds, and a record is created — the
store is not left unchanged. -/
theorem c2_missing_fields_not_rejected :
    decodeReceipt (Json.obj []) = some emptyReceipt ∧
    processReceiptHandler [] (Json.obj []) "id-1" =
      (some "id-1", [("id-1", ⟨"id-1", 0⟩)]) := by decide

/-- C2, amended: every submitted document that fails structural JSON
decoding — a non-object document or a field of the wrong type — makes
the submit operation fail with a client error and leaves the store
unchanged; a well-formed object merely missing fields is accepted. -/
theorem c2_decode_failure_rejected (store : Store) (body : Json) (id : String)
    (h : decodeReceipt body = none) :
    processReceiptHandler store body id = (none, store) := by
  rw [processReceiptHandler, h]

/-- C2 witness: a document whose `items` field is a string (wrong type)
is rejected and an existing store entry is untouched. -/
theorem c2_decode_failure_rejected_witness :
    decodeReceipt (Json.obj [("items", Json.str "x")]) = none ∧
    processReceiptHandler [("k", ⟨"k", 7⟩)] (Json.obj [("items", Json.str "x")]) "id-2" =
      (none, [("k", ⟨"k", 7⟩)]) :=
  ⟨by decide, c2_decode_failure_rejected _ _ "id-2" (by decide)⟩

/-! ### Claim C3 -/

/-- C3: for every receipt the decoder accepts, submitting it answers
with the fresh identifier, and an immediately following retrieval of
that identifier succeeds with exactly the points `calculatePoints`
computes for the decoded receipt. -/
theorem c3_submit_retrieve_roundtrip (store : Store) (body : Json) (id : String)
    (r : Receipt) (h : decodeReceipt body = some r) :
    (processReceiptHandler store body id).1 = some id ∧
    getPointsHandler (processReceiptHandler store body id).2 id =
      (some (calculatePoints r), (processReceiptHandler store body id).2) := by
  rw [processReceiptHandler, h]
  exact ⟨rfl, by simp [getPointsHandler, List.lookup]⟩

/-- C3 witness: the round trip at a concrete one-field receipt. -/
theorem c3_submit_retrieve_roundtrip_witness :
    (processReceiptHandler [] (Json.obj [("retailer", Json.str "Target")]) "w3").1 =
      some "w3" ∧
    getPointsHandler
        (processReceiptHandler [] (Json.obj [("retailer", Json.str "Target")]) "w3").2
        "w3" =
      (some (calculatePoints ⟨"Target", "", "", "", []⟩),
        (processReceiptHandler [] (Json.obj [("retailer", Json.str "Target")]) "w3").2) :=
  c3_submit_retrieve_roundtrip [] _ "w3" _ (by decide)

/-! ### Claim C4 -/

/-- C4, counterexample: a receipt whose total, date, time and single
item price all parse, but whose item price is negative with a
description of trimmed length 0, gets `ceil(-1000 * 0.2) = -200` from
the description rule and only 75 from the other rules, for a total of
-125: `calculatePoints` is not non-negative on all receipts whose
fields parse. -/
theorem c4_negative_points_possible :
    (parseDecimal negativePriceReceipt.total).isSome = true ∧
    (parseDate negativePriceReceipt.purchaseDate).isSome = true ∧
    (parseTime negativePriceReceipt.purchaseTime).isSome = true ∧
    (∀ it ∈ negativePriceReceipt.items, (parseDecimal it.price).isSome = true) ∧
    calculatePoints negativePriceReceipt = -125 ∧
    calculatePoints negativePriceReceipt < 0 := by decide

/-- C4, amended: for every receipt whose numeric, date and time fields
all parse successfully, and whose item prices parse to non-negative
values, `calculatePoints` returns a non-negative integer. -/
theorem c4_points_nonneg (r : Receipt)
    (_htotal : (parseDecimal r.total).isSome = true)
    (_hdate : (parseDate r.purchaseDate).isSome = true)
    (_htime : (parseTime r.purchaseTime).isSome = true)
    (hprice : ∀ it ∈ r.items, ∀ d, parseDecimal it.price = some d → 0 ≤ d.mantissa) :
    0 ≤ calculatePoints r := by
  rw [calculatePoints]
  have h1 := retailerPoints_nonneg r.retailer
  have h2 := totalRulePoints_nonneg r.total
  have h3 := pairPoints_nonneg r.items
  have h4 := descriptionPoints_nonneg r.items hprice
  have h5 := datePoints_nonneg r.purchaseDate
  have h6 := timePoints_nonneg r.purchaseTime
  linarith

/-- C4 witness: non-negativity at a concrete fully-parsing receipt. -/
theorem c4_points_nonneg_witness :
    0 ≤ calculatePoints ⟨"T", "2022-01-01", "13:01", "1.00", []⟩ :=
  c4_points_nonneg ⟨"T", "2022-01-01", "13:01", "1.00", []⟩
    (by decide) (by decide) (by decide) (by simp)

/-! ### Claim C5 -/

/-- C5: the round-dollar and quarter-multiple rules fire independently:
total 35.00 and total 9.00 each contribute 50 + 25 = 75, total 2.99
contributes 0; an unparseable total contributes 0 from both rules; and
the rest of the computation is not aborted by an unparseable total (a
concrete receipt with an unparseable total still collects its retailer,
date and time points). -/
theorem c5_total_rules :
    totalRulePoints "35.00" = 75 ∧
    totalRulePoints "9.00" = 75 ∧
    totalRulePoints "2.99" = 0 ∧
    (∀ total, parseDecimal total = none → totalRulePoints total = 0) ∧
    calculatePoints ⟨"ab", "2022-01-01", "14:30", "not-a-number", []⟩ = 18 := by
  refine ⟨by decide, by decide, by decide, ?_, by decide⟩
  intro t ht
  rw [totalRulePoints, ht]

/-- C5 witness: the unparseable-total conjunct at a concrete string. -/
theorem c5_total_rules_witness :
    parseDecimal "oops" = none ∧ totalRulePoints "oops" = 0 :=
  ⟨by decide, c5_total_rules.2.2.2.1 "oops" (by decide)⟩

/-! ### Claim C6 -/

/-- C6: the afternoon-window rule adds exactly 10 points iff the parsed
time, in minutes since midnight, lies in `[840, 960)`: 14:00 and 14:33
gain 10, 16:00 and 13:59 gain 0, an unparseable time gains 0, and for
every parsed time the contribution is 10 exactly on the half-open
interval. -/
theorem c6_afternoon_window :
    timePoints "14:00" = 10 ∧ timePoints "14:33" = 10 ∧
    timePoints "16:00" = 0 ∧ timePoints "13:59" = 0 ∧
    (∀ t, parseTime t = none → timePoints t = 0) ∧
    (∀ t h m, parseTime t = some (h, m) →
      (timePoints t = 10 ↔ 840 ≤ h * 60 + m ∧ h * 60 + m < 960)) := by
  refine ⟨by decide, by decide, by decide, by decide, ?_, ?_⟩
  · intro t ht
    rw [timePoints, ht]
  · intro t h m ht
    simp only [timePoints, ht]
    split
    next hcond => norm_num; omega
    next hcond => norm_num; omega

/-- C6 witness: the interval characterization applied at 15:30. -/
theorem c6_afternoon_window_witness :
    parseTime "15:30" = some (15, 30) ∧
    (timePoints "15:30" = 10 ↔ 840 ≤ 15 * 60 + 30 ∧ 15 * 60 + 30 < 960) :=
  ⟨by decide, c6_afternoon_window.2.2.2.2.2 "15:30" 15 30 (by decide)⟩

/-! ### Claim C7 -/

/-- C7: an item whose trimmed description has UTF-8 byte length a
multiple of 3 (including 0) and whose price parses contributes exactly
`⌈price * 0.2⌉`; an item whose price fails to parse contributes 0; and
removing such an unparseable-price item from anywhere in the list
leaves every other item's contribution intact. -/
theorem c7_description_length_bonus :
    (∀ it d, utf8Length (trimSpace it.shortDescription.toList) % 3 = 0 →
        parseDecimal it.price = some d →
        itemPoints it = ⌈decValue d * (0.2 : ℚ)⌉) ∧
    (∀ it, parseDecimal it.price = none → itemPoints it = 0) ∧
    (∀ pre post bad, parseDecimal bad.price = none →
        descriptionPoints (pre ++ bad :: post) = descriptionPoints (pre ++ post)) := by
  have hzero : ∀ it : Item, parseDecimal it.price = none → itemPoints it = 0 := by
    intro it hp
    simp only [itemPoints, hp]
    split <;> rfl
  refine ⟨?_, hzero, ?_⟩
  · intro it d hlen hp
    simp only [itemPoints, hp]
    rw [if_pos hlen]
    exact ceilMulFifth_eq_ceil d
  · intro pre post bad hbad
    simp [descriptionPoints, hzero bad hbad]

/-- C7 witness: the description "abc" (3 bytes) with price 10.00
contributes the ceiling of a fifth of 10.00. -/
theorem c7_description_length_bonus_witness :
    itemPoints ⟨"abc", "10.00"⟩ = ⌈decValue ⟨1000, 2⟩ * (0.2 : ℚ)⌉ :=
  c7_description_length_bonus.1 ⟨"abc", "10.00"⟩ ⟨1000, 2⟩ (by decide) (by decide)

/-! ### Claim C9 -/

/-- C9: the description-length rule measures the trimmed description in
UTF-8 bytes, not characters: the contribution is `ceilMulFifth` of the
price exactly when the byte length is a multiple of 3, and on the
two-character, three-byte description "aé" (price 1.00) the bonus fires
(1 point) although the character count 2 is not a multiple of 3, while
on the three-character, four-byte description "éaa" it does not fire
although the character count 3 is one. -/
theorem c9_description_length_in_bytes :
    (∀ it, utf8Length (trimSpace it.shortDescription.toList) % 3 ≠ 0 →
        itemPoints it = 0) ∧
    (∀ it d, utf8Length (trimSpace it.shortDescription.toList) % 3 = 0 →
        parseDecimal it.price = some d → itemPoints it = ceilMulFifth d) ∧
    (itemPoints ⟨"aé", "1.00"⟩ = 1 ∧
      utf8Length (trimSpace "aé".toList) = 3 ∧ "aé".toList.length = 2 ∧
      ¬ "aé".toList.length % 3 = 0) ∧
    (itemPoints ⟨"éaa", "1.00"⟩ = 0 ∧
      utf8Length (trimSpace "éaa".toList) = 4 ∧ "éaa".toList.length = 3 ∧
      "éaa".toList.length % 3 = 0) := by
  refine ⟨?_, ?_, by decide, by decide⟩
  · intro it hlen
    simp only [itemPoints]
    rw [if_neg hlen]
  · intro it d hlen hp
    simp only [itemPoints, hp]
    rw [if_pos hlen]

/-- C9 witness: an 8-byte ASCII description gets no bonus. -/
theorem c9_description_length_in_bytes_witness :
    itemPoints ⟨"Gatorade", "2.25"⟩ = 0 :=
  c9_description_length_in_bytes.1 ⟨"Gatorade", "2.25"⟩ (by decide)

/-! ### Claim C10 -/

/-- C10: retrieval never modifies the store — `getPointsHandler`
returns the store unchanged whether or not the identifier is found —
and submission preserves the invariant that every stored record's `ID`
field equals the key it is stored under. -/
theorem c10_get_pure_store_ids_consistent :
    (∀ store id, (getPointsHandler store id).2 = store) ∧
    (∀ store body id, StoreWF store →
        StoreWF (processReceiptHandler store body id).2) := by
  constructor
  · intro store id
    rw [getPointsHandler]
    split <;> rfl
  · intro store body id hwf
    unfold processReceiptHandler
    cases hb : decodeReceipt body with
    | none => exact hwf
    | some r =>
        intro entry hentry
        rcases List.mem_cons.1 hentry with hcase | hcase
        · subst hcase
          rfl
        · exact hwf entry hcase

/-- C10 witness: the invariant holds after one submission into the
empty store. -/
theorem c10_get_pure_store_ids_consistent_witness :
    StoreWF (processReceiptHandler [] (Json.obj []) "w10").2 :=
  c10_get_pure_store_ids_consistent.2 [] (Json.obj []) "w10" (by simp [StoreWF])

end ReceiptProcessor

